import Mathlib

/-!
Verification of the change-detection engine of the continuous-testing helper
(`conttest/conttest.py` and `zouk/zouk.py`), shallowly embedded in Lean 4.

A Python dict mapping file paths to file states is embedded as an association
list (`Snapshot`); Python's `None` file state is the explicit `FileState.null`
constructor, and a modification timestamp (a Python float) is modelled as an
abstract integer value that the code only ever compares for equality.
`re.search` is abstracted as a boolean matcher parameter, since the engine only
ever uses the truthiness of the match result.
-/

namespace Conttest

/-- The state recorded for one file: a hex digest string (hash method), a
modification timestamp (time method; the Python float is modelled as an
abstract integral value, only ever compared for equality), or `null`
(Python `None`, returned when the file could not be read or stat'ed). -/
inductive FileState where
  | digest (s : String)
  | mtime (t : Int)
  | null
deriving DecidableEq, Repr

/-- A snapshot: the Python dict from file path to `FileState`, embedded as an
association list in insertion order (Python dicts have unique keys; lookups
take the first binding). -/
abbrev Snapshot := List (String × FileState)

/-- The key set of a snapshot, as a finite set: Python `d.keys()` viewed
through `set(...)` / `dict.keys` equality, which is set equality. -/
def keyset (s : Snapshot) : Finset String := (s.map Prod.fst).toFinset

/-- `s[k]` for a Python dict, as an optional lookup (`some v` when the key is
bound to `v`, `none` when absent). -/
def pyGet (s : Snapshot) (k : String) : Option FileState := s.lookup k

/--
`get_diffs(new, old)` from `conttest.py` lines 99-106 / `zouk.py` lines 142-149:

    if new.keys() != old.keys():
        return list(set(new.keys()) - set(old.keys()))
    return [key for key in new.keys() if new[key] != old[key]]

The Python function returns a list whose order is unspecified (branch one goes
through `set`), so the result is embedded as the finite set of reported paths.
-/
def get_diffs (new old : Snapshot) : Finset String :=
  if keyset new ≠ keyset old then
    keyset new \ keyset old
  else
    ((new.map Prod.fst).filter (fun k => decide (pyGet new k ≠ pyGet old k))).toFinset

/-- Membership in the key list is membership in the key set. -/
lemma mem_keyset {s : Snapshot} {k : String} :
    k ∈ keyset s ↔ k ∈ s.map Prod.fst := by
  simp [keyset]

/-- Claim C1: for snapshots whose key sets differ, `get_diffs new old` is
exactly the set of keys present in `new` and absent from `old`; keys present
in both snapshots are never reported in this branch, and if the new key set is
a strict subset of the old one the diff is empty. -/
theorem get_diffs_key_change (new old : Snapshot) (h : keyset new ≠ keyset old) :
    (∀ k, k ∈ get_diffs new old ↔ k ∈ keyset new ∧ k ∉ keyset old) ∧
    (∀ k, k ∈ keyset new → k ∈ keyset old → k ∉ get_diffs new old) ∧
    (keyset new ⊆ keyset old → get_diffs new old = ∅) := by
  have hbranch : get_diffs new old = keyset new \ keyset old := by
    rw [get_diffs, if_pos h]
  refine ⟨?_, ?_, ?_⟩
  · intro k
    rw [hbranch]
    exact Finset.mem_sdiff
  · intro k _ hkold
    rw [hbranch]
    simp [Finset.mem_sdiff, hkold]
  · intro hsub
    rw [hbranch]
    exact Finset.sdiff_eq_empty_iff_subset.mpr hsub

/-- Witness for C1 at the spec's example: A has keys x, y and B has keys
x, y, z; then `get_diffs B A` contains z, which is in B's keys and not A's. -/
theorem get_diffs_key_change_witness :
    keyset [("x", FileState.digest "h"), ("y", FileState.digest "h"),
            ("z", FileState.digest "h")] ≠
      keyset [("x", FileState.digest "h"), ("y", FileState.digest "h")] ∧
    ("z" ∈ get_diffs
        [("x", FileState.digest "h"), ("y", FileState.digest "h"),
         ("z", FileState.digest "h")]
        [("x", FileState.digest "h"), ("y", FileState.digest "h")] ↔
      "z" ∈ keyset [("x", FileState.digest "h"), ("y", FileState.digest "h"),
                    ("z", FileState.digest "h")] ∧
      "z" ∉ keyset [("x", FileState.digest "h"), ("y", FileState.digest "h")]) :=
  ⟨by decide,
   (get_diffs_key_change
      [("x", FileState.digest "h"), ("y", FileState.digest "h"),
       ("z", FileState.digest "h")]
      [("x", FileState.digest "h"), ("y", FileState.digest "h")]
      (by decide)).1 "z"⟩

/-- Claim C3: for snapshots with identical key sets, `get_diffs new old` is
exactly the set of keys whose `FileState` value differs between the two
snapshots (`null` being an ordinary comparable value of `FileState`). -/
theorem get_diffs_value_change (new old : Snapshot) (h : keyset new = keyset old) :
    ∀ k, k ∈ get_diffs new old ↔ k ∈ keyset new ∧ pyGet new k ≠ pyGet old k := by
  intro k
  have hbranch : get_diffs new old =
      ((new.map Prod.fst).filter (fun k => decide (pyGet new k ≠ pyGet old k))).toFinset := by
    rw [get_diffs, if_neg (by simpa using h)]
  rw [hbranch]
  simp [List.mem_filter, mem_keyset]

/-- Witness for C3: two snapshots both with key set containing only x, where
the value of x flips from `null` to a digest; the changed key x is reported. -/
theorem get_diffs_value_change_witness :
    keyset [("x", FileState.digest "h2")] = keyset [("x", FileState.null)] ∧
    ("x" ∈ get_diffs [("x", FileState.digest "h2")] [("x", FileState.null)] ↔
      "x" ∈ keyset [("x", FileState.digest "h2")] ∧
      pyGet [("x", FileState.digest "h2")] "x" ≠ pyGet [("x", FileState.null)] "x") :=
  ⟨by decide,
   get_diffs_value_change [("x", FileState.digest "h2")] [("x", FileState.null)]
     (by decide) "x"⟩

/-- Claim C4: `get_diffs S S` is empty for every snapshot S. -/
theorem get_diffs_self (s : Snapshot) : get_diffs s s = ∅ := by
  rw [get_diffs, if_neg (by simp)]
  simp

/-! ## Pattern Filter (`include_file_in_checks`, `excluded_pattern`)

String operations are embedded on the character-list level (`String.data`) so
that every definition evaluates inside the kernel; each one mirrors the
corresponding Python `str` method. -/

/-- `os.path.sep` on the POSIX platform the watcher runs on. -/
def pySep : Char := '/'

/-- `IGNORE_PREFIXES = (".", "#")` from both source files. -/
def IGNORE_PREFIXES : List String := [".", "#"]

/-- `IGNORE_EXTENSIONS = ("pyc", "pyo", "_flymake.py")` from both source
files. -/
def IGNORE_EXTENSIONS : List String := ["pyc", "pyo", "_flymake.py"]

/-- `IGNORE_DIRS = (".git", ".hg", ".svn")` from both source files. -/
def IGNORE_DIRS : List String := [".git", ".hg", ".svn"]

/-- Python `s.startswith(p)`. -/
def pyStartsWith (s p : String) : Bool := p.data.isPrefixOf s.data

/-- Python `s.endswith(suffix)`. -/
def pyEndsWith (s suffix : String) : Bool := suffix.data.isSuffixOf s.data

/-- Helper for `pySplitSep`: accumulates the current (reversed) segment while
scanning the characters. -/
def pySplitSepAux (sep : Char) : List Char → List Char → List (List Char)
  | cur, [] => [cur.reverse]
  | cur, c :: cs =>
    if c = sep then cur.reverse :: pySplitSepAux sep [] cs
    else pySplitSepAux sep (c :: cur) cs

/-- Python `s.split(sep)` for a one-character separator `sep` (as in
`path.split(os.path.sep)`): splits at every occurrence, keeping empty
segments. -/
def pySplitSep (s : String) (sep : Char) : List String :=
  (pySplitSepAux sep [] s.data).map String.mk

/-- `os.path.basename(path)`: everything after the last path separator
(the whole path when no separator occurs). -/
def pyBasename (path : String) : String :=
  String.mk ((path.data.reverse.takeWhile (fun c => decide (c ≠ '/'))).reverse)

/--
`excluded_pattern(root, excludes)` from `conttest.py` lines 45-48 /
`zouk.py` lines 77-85: true iff some pattern of `excludes` matches `root`
under `re.search`. Python's regular-expression engine is abstracted as the
boolean `matcher` parameter (`matcher pat s` models
`re.search(pat, s) is not None`); the conttest variant returns `True`/`None`,
whose truthiness this Bool models.
-/
def excluded_pattern (matcher : String → String → Bool)
    (root : String) (excludes : List String) : Bool :=
  excludes.any (fun pat => matcher pat root)

/--
`include_file_in_checks(path, excludes)` from `conttest.py` lines 24-42 /
`zouk.py` lines 46-74: reject when the basename starts with an ignored
marker, the path ends with an ignored suffix, or any `os.path.sep`-separated
segment is an ignored directory; otherwise include exactly when no exclude
pattern matches the full path.
-/
def include_file_in_checks (matcher : String → String → Bool)
    (path : String) (excludes : List String) : Bool :=
  if IGNORE_PREFIXES.any (fun p => pyStartsWith (pyBasename path) p) then false
  else if IGNORE_EXTENSIONS.any (fun e => pyEndsWith path e) then false
  else if (pySplitSep path pySep).any (fun part => IGNORE_DIRS.contains part) then false
  else !excluded_pattern matcher path excludes

/-- A path whose basename starts with an ignored marker is rejected,
whatever the exclude rules and matcher. -/
lemma include_false_of_ignored_start (matcher : String → String → Bool)
    (path : String) (excludes : List String)
    (h : pyStartsWith (pyBasename path) "." = true ∨
         pyStartsWith (pyBasename path) "#" = true) :
    include_file_in_checks matcher path excludes = false := by
  have hany : IGNORE_PREFIXES.any (fun p => pyStartsWith (pyBasename path) p) = true := by
    simp only [IGNORE_PREFIXES, List.any_cons, List.any_nil, Bool.or_eq_true,
      Bool.or_false]
    tauto
  rw [include_file_in_checks, if_pos hany]

/-- A path ending in an ignored suffix is rejected, whatever the exclude
rules and matcher. -/
lemma include_false_of_ignored_suffix (matcher : String → String → Bool)
    (path : String) (excludes : List String)
    (h : pyEndsWith path "pyc" = true ∨ pyEndsWith path "pyo" = true ∨
         pyEndsWith path "_flymake.py" = true) :
    include_file_in_checks matcher path excludes = false := by
  have hany : IGNORE_EXTENSIONS.any (fun e => pyEndsWith path e) = true := by
    simp only [IGNORE_EXTENSIONS, List.any_cons, List.any_nil, Bool.or_eq_true,
      Bool.or_false]
    tauto
  simp [include_file_in_checks, hany]

/-- A path one of whose segments is an ignored version-control directory is
rejected, whatever the exclude rules and matcher. -/
lemma include_false_of_ignored_dir (matcher : String → String → Bool)
    (path : String) (excludes : List String)
    (h : ∃ part ∈ pySplitSep path pySep, part ∈ IGNORE_DIRS) :
    include_file_in_checks matcher path excludes = false := by
  rcases h with ⟨part, hmem, hdir⟩
  simp only [include_file_in_checks]
  split
  · rfl
  · split
    · rfl
    · rw [if_pos (by simp only [List.any_eq_true]; exact ⟨part, hmem, by simpa using hdir⟩)]

/-- Claim C5: `include_file_in_checks` is false — independently of the
exclude rule set and of the regular-expression matcher — whenever the
basename starts with "." or "#", or the path ends with "pyc", "pyo" or
"_flymake.py", or some path segment is ".git", ".hg" or ".svn". -/
theorem include_file_structural_reject (matcher : String → String → Bool)
    (path : String) (excludes : List String)
    (h : pyStartsWith (pyBasename path) "." = true ∨
         pyStartsWith (pyBasename path) "#" = true ∨
         pyEndsWith path "pyc" = true ∨ pyEndsWith path "pyo" = true ∨
         pyEndsWith path "_flymake.py" = true ∨
         (∃ part ∈ pySplitSep path pySep, part ∈ IGNORE_DIRS)) :
    include_file_in_checks matcher path excludes = false := by
  rcases h with h | h | h | h | h | h
  · exact include_false_of_ignored_start matcher path excludes (Or.inl h)
  · exact include_false_of_ignored_start matcher path excludes (Or.inr h)
  · exact include_false_of_ignored_suffix matcher path excludes (Or.inl h)
  · exact include_false_of_ignored_suffix matcher path excludes (Or.inr (Or.inl h))
  · exact include_false_of_ignored_suffix matcher path excludes (Or.inr (Or.inr h))
  · exact include_false_of_ignored_dir matcher path excludes h

/-- Witness for C5: the dot-file "src/.hidden.py" is rejected even with a
matcher that matches everything and a nonempty rule set. -/
theorem include_file_structural_reject_witness :
    (pyStartsWith (pyBasename "src/.hidden.py") "." = true ∨
     pyStartsWith (pyBasename "src/.hidden.py") "#" = true ∨
     pyEndsWith "src/.hidden.py" "pyc" = true ∨
     pyEndsWith "src/.hidden.py" "pyo" = true ∨
     pyEndsWith "src/.hidden.py" "_flymake.py" = true ∨
     (∃ part ∈ pySplitSep "src/.hidden.py" pySep, part ∈ IGNORE_DIRS)) ∧
    include_file_in_checks (fun _ _ => true) "src/.hidden.py" ["anything"] = false :=
  ⟨Or.inl (by decide),
   include_file_structural_reject (fun _ _ => true) "src/.hidden.py" ["anything"]
     (Or.inl (by decide))⟩

/-- Claim C6: if some pattern of the exclude rule set matches the path under
the (substring-search) matcher, `include_file_in_checks` is false. -/
theorem include_file_excluded_by_pattern (matcher : String → String → Bool)
    (path : String) (excludes : List String)
    (h : ∃ pat ∈ excludes, matcher pat path = true) :
    include_file_in_checks matcher path excludes = false := by
  have hexcl : excluded_pattern matcher path excludes = true := by
    simp only [excluded_pattern, List.any_eq_true]
    exact h
  rw [include_file_in_checks]
  split
  · rfl
  · split
    · rfl
    · split
      · rfl
      · rw [hexcl]
        rfl

/-- Witness for C6 at the doctest of `zouk.py`: with a matcher that looks for
the pattern at the start of the path (one sound approximation of
`re.search`), pattern "my" matches "myfile.py", which is not included. -/
theorem include_file_excluded_by_pattern_witness :
    (∃ pat ∈ ["my"], pyStartsWith "myfile.py" pat = true) ∧
    include_file_in_checks (fun pat s => pyStartsWith s pat)
      "myfile.py" ["my"] = false :=
  ⟨⟨"my", by decide, by decide⟩,
   include_file_excluded_by_pattern (fun pat s => pyStartsWith s pat)
     "myfile.py" ["my"] ⟨"my", by decide, by decide⟩⟩

/-- Claim C10: the ignored-suffix test is a raw string-suffix test, not an
extension test: any path merely ending in the characters "pyc" or "pyo" is
rejected, with no dot required, whatever the exclude rules and matcher. -/
theorem include_file_raw_suffix_reject (matcher : String → String → Bool)
    (path : String) (excludes : List String)
    (h : pyEndsWith path "pyc" = true ∨ pyEndsWith path "pyo" = true) :
    include_file_in_checks matcher path excludes = false := by
  rcases h with h | h
  · exact include_false_of_ignored_suffix matcher path excludes (Or.inl h)
  · exact include_false_of_ignored_suffix matcher path excludes (Or.inr (Or.inl h))

/-- Witness for C10: the dot-less file name "numpyc" is rejected. -/
theorem include_file_raw_suffix_reject_witness :
    (pyEndsWith "numpyc" "pyc" = true ∨
     pyEndsWith "numpyc" "pyo" = true) ∧
    include_file_in_checks (fun _ _ => false) "numpyc" [] = false :=
  ⟨Or.inl (by decide),
   include_file_raw_suffix_reject (fun _ _ => false) "numpyc" []
     (Or.inl (by decide))⟩

/-! ## Watch Loop (`watch_dir`), one poll cycle -/

/-- Python dict equality (`new != filedict` compares dicts by value): same
key set and the same value at every key. -/
def dictEq (a b : Snapshot) : Prop :=
  keyset a = keyset b ∧ ∀ k ∈ keyset a, pyGet a k = pyGet b k

instance (a b : Snapshot) : Decidable (dictEq a b) :=
  inferInstanceAs (Decidable (_ ∧ _))

/-- The observable outcome of one iteration of the `watch_dir` loop body:
the arguments of the callback invocations made during the iteration, in
order, and the baseline snapshot (`filedict`) at the end of the iteration. -/
structure CycleResult where
  calls : List (Finset String)
  nextBaseline : Snapshot
deriving DecidableEq

/--
One iteration of the `while True` body of `watch_dir` (`conttest.py` lines
109-124 / `zouk.py` lines 152-168):

    new = walk(dir_, method, excludes=excludes)
    if new != filedict:
        callback(get_diffs(new, filedict))
        filedict = walk(dir_, method, excludes=excludes)
    time.sleep(0.3)

`filedict` is the baseline at the start of the iteration, `new` the snapshot
the iteration takes, and `post` the re-snapshot taken after the callback
returns (the "do it again, in case command changed files" walk).
-/
def watchDirStep (filedict new post : Snapshot) : CycleResult :=
  if ¬ dictEq new filedict then
    { calls := [get_diffs new filedict], nextBaseline := post }
  else
    { calls := [], nextBaseline := filedict }

/-- Equal dicts produce an empty diff. -/
lemma get_diffs_empty_of_dictEq {new old : Snapshot} (h : dictEq new old) :
    get_diffs new old = ∅ := by
  rcases h with ⟨hk, hv⟩
  rw [get_diffs, if_neg (by simpa using hk)]
  have hfilter :
      (new.map Prod.fst).filter (fun k => decide (pyGet new k ≠ pyGet old k)) = [] := by
    rw [List.filter_eq_nil_iff]
    intro k hk'
    simpa using hv k (mem_keyset.mpr hk')
  rw [hfilter]
  rfl

/--
Counterexample to claim C2 as stated: the loop guard is snapshot
inequality, not diff non-emptiness. When the baseline holds keys x and y
and the new snapshot only x (a file was deleted), the snapshots differ but
`get_diffs` is empty, and the cycle invokes the callback exactly once with
the empty changed-path set.
-/
theorem watch_dir_empty_dispatch_cex :
    (watchDirStep
        [("x", FileState.digest "h"), ("y", FileState.digest "h")]
        [("x", FileState.digest "h")]
        [("x", FileState.digest "h")]).calls = [(∅ : Finset String)] ∧
    get_diffs [("x", FileState.digest "h")]
        [("x", FileState.digest "h"), ("y", FileState.digest "h")] = ∅ := by
  constructor
  · rw [watchDirStep, if_pos (by decide)]
    rw [show get_diffs [("x", FileState.digest "h")]
        [("x", FileState.digest "h"), ("y", FileState.digest "h")] = ∅ from by decide]
  · decide

/-- Claim C2 (amended): in every poll cycle, a non-empty diff causes exactly
one callback invocation, carrying that diff; no callback happens when the new
snapshot equals the baseline; but the guard being snapshot inequality, any
unequal snapshot — even one whose diff is empty, as when files were only
removed — also causes exactly one invocation, carrying the (then possibly
empty) diff. -/
theorem watch_dir_dispatch (filedict new post : Snapshot) :
    (get_diffs new filedict ≠ ∅ →
      (watchDirStep filedict new post).calls = [get_diffs new filedict]) ∧
    (dictEq new filedict → (watchDirStep filedict new post).calls = []) ∧
    (¬ dictEq new filedict →
      (watchDirStep filedict new post).calls = [get_diffs new filedict]) := by
  refine ⟨?_, ?_, ?_⟩
  · intro hne
    have hnd : ¬ dictEq new filedict := fun hd => hne (get_diffs_empty_of_dictEq hd)
    rw [watchDirStep, if_pos hnd]
  · intro hd
    rw [watchDirStep, if_neg (by simpa using hd)]
  · intro hnd
    rw [watchDirStep, if_pos hnd]

/-- Witness for C2 (amended): a value change of x yields a non-empty diff
and exactly one callback invocation, with changed set containing x. -/
theorem watch_dir_dispatch_witness :
    (get_diffs [("x", FileState.digest "h2")] [("x", FileState.digest "h1")] ≠ ∅) ∧
    (watchDirStep [("x", FileState.digest "h1")] [("x", FileState.digest "h2")]
        [("x", FileState.digest "h2")]).calls =
      [get_diffs [("x", FileState.digest "h2")] [("x", FileState.digest "h1")]] :=
  ⟨by decide,
   (watch_dir_dispatch [("x", FileState.digest "h1")] [("x", FileState.digest "h2")]
      [("x", FileState.digest "h2")]).1 (by decide)⟩

/-! ## State Snapshotter (`getstate`) -/

/-- The detection method: the `HASHES`/`TIMES` string constants of
`conttest.py`, the `Method` enum of `zouk.py`. -/
inductive Method where
  | HASHES
  | TIMES
deriving DecidableEq

/-- The filesystem as seen by `getstate`:
`readBytes p` models `open(p, "br").read()` (`none` = `IOError`),
`readText p` models text-mode `open(p).read()` (`none` = `IOError`), and
`mtime p` models `os.path.getmtime(p)` (`none` = `OSError`, e.g. a broken
link; the float timestamp is modelled as an abstract integral value). -/
structure FS where
  readBytes : String → Option (List Nat)
  readText : String → Option String
  mtime : String → Option Int

/--
`getstate(full_path, method)` from `zouk.py` lines 88-112: under the hash
method, read the whole file in binary mode, returning `null` on `IOError`
and the hex SHA-224 digest of the bytes otherwise; under the time method,
return the modification timestamp, or `null` on `OSError`. The external
`hashlib.sha224(...).hexdigest()` is abstracted as the `sha224hex`
parameter.
-/
def getstate (sha224hex : List Nat → String) (fs : FS) (full_path : String) :
    Method → FileState
  | .HASHES =>
    match fs.readBytes full_path with
    | none => .null
    | some content => .digest (sha224hex content)
  | .TIMES =>
    match fs.mtime full_path with
    | none => .null
    | some t => .mtime t

/-- A Python exception escaping `getstate` uncaught. -/
inductive PyExn where
  | typeError
deriving DecidableEq

/--
`getstate(full_path, method)` from `conttest.py` lines 51-62. Unlike
`zouk.py`, it reads the file in text mode (`open(full_path).read()`, a
`str`) and passes that `str` to `hashlib.sha224`; under Python 3 (which this
file targets — it uses f-strings) `hashlib.sha224` on a `str` raises
`TypeError`, which no handler catches, so a successful read ends in an
uncaught exception instead of a digest. The time method is unaffected.
-/
def conttest_getstate (fs : FS) (full_path : String) :
    Method → Except PyExn FileState
  | .HASHES =>
    match fs.readText full_path with
    | none => .ok .null
    | some _content => .error .typeError
  | .TIMES =>
    match fs.mtime full_path with
    | none => .ok .null
    | some t => .ok (.mtime t)

/-- A concrete filesystem with one readable file `a.txt` (content "hello",
bytes 104 101 108 108 111, mtime 42) and nothing else. -/
def demoFS : FS where
  readBytes := fun p => if p = "a.txt" then some [104, 101, 108, 108, 111] else none
  readText := fun p => if p = "a.txt" then some "hello" else none
  mtime := fun p => if p = "a.txt" then some 42 else none

/-- Claim C7, checked at the failing input: `zouk.py`'s `getstate` behaves as
the claim states on the demo filesystem — digest of the bytes on a successful
binary read, timestamp on a successful stat, `null` exactly on failure —
but `conttest.py`'s `getstate`, hash method, on the same readable file
`a.txt` raises an uncaught `TypeError` instead of returning the digest,
aborting the scan. -/
theorem conttest_getstate_hash_aborts :
    conttest_getstate demoFS "a.txt" .HASHES = .error .typeError ∧
    (∀ sha : List Nat → String,
      getstate sha demoFS "a.txt" .HASHES = .digest (sha [104, 101, 108, 108, 111])) ∧
    getstate (fun _ => "") demoFS "missing.txt" .HASHES = .null ∧
    getstate (fun _ => "") demoFS "a.txt" .TIMES = .mtime 42 ∧
    getstate (fun _ => "") demoFS "missing.txt" .TIMES = .null :=
  ⟨rfl, fun _ => rfl, rfl, rfl, rfl⟩

/-! ## Exclude rule set loading (`get_exclude_patterns_from_file`) -/

/-- Helper for `pySplitWs`: Python `s.split()` with no separator, scanning
the characters while accumulating the current (reversed) token; runs of
whitespace separate tokens and produce no empty strings. -/
def pySplitWsAux : List Char → List Char → List (List Char)
  | cur, [] => if cur = [] then [] else [cur.reverse]
  | cur, c :: cs =>
    if c.isWhitespace then
      if cur = [] then pySplitWsAux [] cs
      else cur.reverse :: pySplitWsAux [] cs
    else pySplitWsAux (c :: cur) cs

/-- Python `s.split()` (no argument): the whitespace-delimited tokens of
`s`, with no empty tokens. -/
def pySplitWs (s : String) : List String :=
  (pySplitWsAux [] s.data).map String.mk

/-- Python `s.strip()` (no argument): remove leading and trailing
whitespace. -/
def pyStrip (s : String) : String :=
  String.mk (((s.data.dropWhile Char.isWhitespace).reverse.dropWhile
      Char.isWhitespace).reverse)

/--
`get_exclude_patterns_from_file(path)` from `zouk.py` lines 131-139: the
sidecar file is modelled by its content (`none` when `os.path.exists` is
false); a missing file yields the empty rule set, an existing one the
tokens of `file_.read().split()`.
-/
def get_exclude_patterns_from_file (file : Option String) : List String :=
  match file with
  | none => []
  | some content => pySplitWs content

/--
`get_exclude_patterns_from_file(path)` from `conttest.py` lines 80-84:

    return [s.strip() for s in f.read().split() if s.strip() != ""]

i.e. the stripped tokens of `split()` that are non-empty after stripping.
-/
def conttest_get_exclude_patterns_from_file (file : Option String) : List String :=
  match file with
  | none => []
  | some content =>
    ((pySplitWs content).filter (fun s => decide (pyStrip s ≠ ""))).map pyStrip

/-- Every token produced by the `split()` scanner is non-empty and free of
whitespace, provided the accumulator is. -/
lemma pySplitWsAux_tokens (l : List Char) : ∀ cur : List Char,
    (∀ c ∈ cur, c.isWhitespace = false) →
    ∀ t ∈ pySplitWsAux cur l, t ≠ [] ∧ ∀ c ∈ t, c.isWhitespace = false := by
  induction l with
  | nil =>
    intro cur hcur t ht
    rw [pySplitWsAux] at ht
    split at ht
    · simp at ht
    · rename_i hcurne
      rw [List.mem_singleton] at ht
      subst ht
      refine ⟨by simpa using hcurne, ?_⟩
      intro c hc
      exact hcur c (List.mem_reverse.mp hc)
  | cons c cs ih =>
    intro cur hcur t ht
    rw [pySplitWsAux] at ht
    split at ht
    · split at ht
      · exact ih [] (by simp) t ht
      · rename_i hcurne
        rw [List.mem_cons] at ht
        rcases ht with ht | ht
        · subst ht
          refine ⟨by simpa using hcurne, ?_⟩
          intro c' hc'
          exact hcur c' (List.mem_reverse.mp hc')
        · exact ih [] (by simp) t ht
    · rename_i hcws
      refine ih (c :: cur) ?_ t ht
      intro c' hc'
      rcases List.mem_cons.mp hc' with h | h
      · subst h
        simpa using hcws
      · exact hcur c' h

/-- `dropWhile` does nothing on a list whose head fails the predicate. -/
lemma dropWhile_eq_self_of_head {p : Char → Bool} : ∀ {l : List Char},
    (∀ c ∈ l, p c = false) → l.dropWhile p = l := by
  intro l hl
  cases l with
  | nil => rfl
  | cons c cs =>
    rw [List.dropWhile_cons, hl c (List.mem_cons_self c cs)]
    simp

/-- Stripping a non-empty whitespace-free token is the identity. -/
lemma pyStrip_token {t : List Char}
    (htok : ∀ c ∈ t, c.isWhitespace = false) :
    pyStrip (String.mk t) = String.mk t := by
  rw [pyStrip]
  have h1 : (String.mk t).data = t := rfl
  rw [h1, dropWhile_eq_self_of_head htok,
    dropWhile_eq_self_of_head (fun c hc => htok c (List.mem_reverse.mp hc)),
    List.reverse_reverse]

/-- A token with at least one character is not the empty string. -/
lemma stringMk_ne_empty {t : List Char} (h : t ≠ []) : String.mk t ≠ "" := by
  intro he
  exact h (congrArg String.data he)

/-- Claim C8: loading the exclude rule set yields the empty rule set (and no
error) when the sidecar file is missing, and the whitespace-delimited tokens
of its content when it exists — in both implementations; in particular the
conttest variant's strip-and-filter step never changes the token list. -/
theorem get_exclude_patterns_spec (file : Option String) :
    get_exclude_patterns_from_file none = [] ∧
    conttest_get_exclude_patterns_from_file none = [] ∧
    (∀ c, get_exclude_patterns_from_file (some c) = pySplitWs c) ∧
    conttest_get_exclude_patterns_from_file file =
      get_exclude_patterns_from_file file := by
  refine ⟨rfl, rfl, fun _ => rfl, ?_⟩
  cases file with
  | none => rfl
  | some content =>
    show ((pySplitWs content).filter (fun s => decide (pyStrip s ≠ ""))).map pyStrip =
      pySplitWs content
    have htoks := pySplitWsAux_tokens content.data [] (by simp)
    have hstrip : ∀ s ∈ pySplitWs content, pyStrip s = s := by
      intro s hs
      rcases List.mem_map.mp hs with ⟨t, ht, rfl⟩
      exact pyStrip_token (htoks t ht).2
    have hne : ∀ s ∈ pySplitWs content, s ≠ "" := by
      intro s hs
      rcases List.mem_map.mp hs with ⟨t, ht, rfl⟩
      exact stringMk_ne_empty (htoks t ht).1
    have hfilter : (pySplitWs content).filter (fun s => decide (pyStrip s ≠ "")) =
        pySplitWs content := by
      rw [List.filter_eq_self]
      intro s hs
      rw [hstrip s hs]
      exact decide_eq_true (hne s hs)
    rw [hfilter]
    calc (pySplitWs content).map pyStrip
        = (pySplitWs content).map id := List.map_congr_left (fun s hs => hstrip s hs)
      _ = pySplitWs content := List.map_id _

/-! ## Directory walking (`walk`) -/

/-- `os.path.join(root, name)` for the shapes produced by `os.walk`: a
nonempty root with no trailing separator and a relative file name. -/
def pyJoin (root name : String) : String := root ++ "/" ++ name

/-- Python dict assignment `filestates[k] = v`: replace the binding in place
when the key exists, append it otherwise (dicts keep insertion order). -/
def dictInsert (s : Snapshot) (k : String) (v : FileState) : Snapshot :=
  if (s.map Prod.fst).contains k then
    s.map (fun kv => if kv.1 = k then (k, v) else kv)
  else s ++ [(k, v)]

/-- The inner `for name in files` loop of `walk` (`conttest.py` lines 70-75 /
`zouk.py` lines 121-127): skip a file whose bare name matches an exclude
pattern; otherwise record the state of the joined path when the Pattern
Filter includes it. -/
def walkDir (matcher : String → String → Bool) (sha : List Nat → String)
    (fs : FS) (method : Method) (excludes : List String) (root : String)
    (acc : Snapshot) (files : List String) : Snapshot :=
  files.foldl (fun filestates name =>
    if excluded_pattern matcher name excludes then filestates
    else if include_file_in_checks matcher (pyJoin root name) excludes then
      dictInsert filestates (pyJoin root name)
        (getstate sha fs (pyJoin root name) method)
    else filestates) acc

/--
`walk(top, method, filestates, excludes)` from `conttest.py` lines 65-77 /
`zouk.py` lines 115-128. The directory enumeration of
`os.walk(top, topdown=False)` is modelled by the list `dirs` of
`(root, files)` pairs it yields; `filestates` is the dict the conttest
variant threads through (the zouk variant, and every call site in both
files, starts from the empty dict).
-/
def walk (matcher : String → String → Bool) (sha : List Nat → String)
    (fs : FS) (method : Method) (dirs : List (String × List String))
    (excludes : List String) (filestates : Snapshot) : Snapshot :=
  dirs.foldl (fun acc d => walkDir matcher sha fs method excludes d.1 acc d.2)
    filestates

/-- A key of `dictInsert s k v` is `k` or a key of `s`. -/
lemma mem_keyset_dictInsert {s : Snapshot} {k p : String} {v : FileState}
    (h : p ∈ keyset (dictInsert s k v)) : p = k ∨ p ∈ keyset s := by
  rw [dictInsert] at h
  split at h
  · rw [mem_keyset, List.map_map, List.mem_map] at h
    rcases h with ⟨kv, hkv, hp⟩
    simp only [Function.comp] at hp
    split at hp
    · exact Or.inl hp.symm
    · refine Or.inr (mem_keyset.mpr (List.mem_map.mpr ⟨kv, hkv, hp⟩))
  · rw [mem_keyset, List.map_append, List.mem_append] at h
    rcases h with h | h
    · exact Or.inr (mem_keyset.mpr h)
    · simp at h
      exact Or.inl h

/-- Every key added by the inner file loop is an eligible joined path:
its bare name matches no exclude pattern and its full path passes the
Pattern Filter. -/
lemma mem_keyset_walkDir (matcher : String → String → Bool)
    (sha : List Nat → String) (fs : FS) (method : Method)
    (excludes : List String) (root : String) :
    ∀ (files : List String) (acc : Snapshot) (p : String),
      p ∈ keyset (walkDir matcher sha fs method excludes root acc files) →
      p ∈ keyset acc ∨ ∃ name ∈ files, p = pyJoin root name ∧
        excluded_pattern matcher name excludes = false ∧
        include_file_in_checks matcher p excludes = true := by
  intro files
  induction files with
  | nil => intro acc p hp; exact Or.inl hp
  | cons name files ih =>
    intro acc p hp
    rw [walkDir, List.foldl_cons] at hp
    rcases ih _ p hp with hacc | ⟨name', hname', rest⟩
    · split at hacc
      · exact Or.inl hacc
      · split at hacc
        · rename_i hexcl hincl
          rcases mem_keyset_dictInsert hacc with rfl | hmem
          · refine Or.inr ⟨name, List.mem_cons_self name files, rfl,
              Bool.not_eq_true _ ▸ eq_false_of_ne_true hexcl, hincl⟩
          · exact Or.inl hmem
        · exact Or.inl hacc
    · exact Or.inr ⟨name', List.mem_cons_of_mem name hname', rest⟩

/-- Every key added by `walk` comes from one of the walked directories and
is an eligible joined path there. -/
lemma mem_keyset_walk (matcher : String → String → Bool)
    (sha : List Nat → String) (fs : FS) (method : Method)
    (excludes : List String) :
    ∀ (dirs : List (String × List String)) (acc : Snapshot) (p : String),
      p ∈ keyset (walk matcher sha fs method dirs excludes acc) →
      p ∈ keyset acc ∨ ∃ d ∈ dirs, ∃ name ∈ d.2, p = pyJoin d.1 name ∧
        excluded_pattern matcher name excludes = false ∧
        include_file_in_checks matcher p excludes = true := by
  intro dirs
  induction dirs with
  | nil => intro acc p hp; exact Or.inl hp
  | cons d dirs ih =>
    intro acc p hp
    rw [walk, List.foldl_cons] at hp
    rcases ih _ p hp with hacc | ⟨d', hd', rest⟩
    · rcases mem_keyset_walkDir matcher sha fs method excludes d.1 d.2 acc p hacc with
        hmem | ⟨name, hname, rest⟩
      · exact Or.inl hmem
      · exact Or.inr ⟨d, List.mem_cons_self d dirs, name, hname, rest⟩
    · exact Or.inr ⟨d', List.mem_cons_of_mem d hd', rest⟩

/-- The basename of a joined path is the joined file name, when that name
contains no separator. -/
lemma pyBasename_pyJoin (r n : String) (h : ∀ c ∈ n.data, c ≠ '/') :
    pyBasename (pyJoin r n) = n := by
  apply String.ext
  show ((pyJoin r n).data.reverse.takeWhile (fun c => decide (c ≠ '/'))).reverse = n.data
  have hdata : (pyJoin r n).data = (r.data ++ ['/']) ++ n.data := by
    show ((r ++ "/") ++ n).data = _
    rw [String.data_append, String.data_append]
  rw [hdata, List.reverse_append, List.reverse_append]
  show (List.takeWhile _ (n.data.reverse ++ (['/'] ++ r.data.reverse))).reverse = n.data
  rw [List.takeWhile_append_of_pos
    (by intro a ha; exact decide_eq_true (h a (List.mem_reverse.mp ha)))]
  rw [show List.takeWhile (fun c => decide (c ≠ '/')) (['/'] ++ r.data.reverse) = [] from
    List.takeWhile_cons_of_neg (by simp)]
  rw [List.append_nil, List.reverse_reverse]

/-- Claim C9: every key of a snapshot produced by `walk` (from the empty
dict, as at every call site) passed both eligibility checks at scan time —
its bare filename matches no exclude pattern and its full path passes the
Pattern Filter — and lies strictly under the watched root. -/
theorem walk_snapshot_invariant (matcher : String → String → Bool)
    (sha : List Nat → String) (fs : FS) (method : Method)
    (dirs : List (String × List String)) (excludes : List String) (top : String)
    (hroot : ∀ d ∈ dirs, ∃ rel : String, d.1 = top ++ rel)
    (hname : ∀ d ∈ dirs, ∀ n ∈ d.2, ∀ c ∈ n.data, c ≠ '/')
    (p : String) (hp : p ∈ keyset (walk matcher sha fs method dirs excludes [])) :
    excluded_pattern matcher (pyBasename p) excludes = false ∧
    include_file_in_checks matcher p excludes = true ∧
    ∃ rest : String, rest ≠ "" ∧ p = top ++ rest := by
  rcases mem_keyset_walk matcher sha fs method excludes dirs [] p hp with hmem | h
  · simp [keyset] at hmem
  · rcases h with ⟨d, hd, name, hnamemem, rfl, hexcl, hincl⟩
    have hbase : pyBasename (pyJoin d.1 name) = name :=
      pyBasename_pyJoin d.1 name (hname d hd name hnamemem)
    refine ⟨by rw [hbase]; exact hexcl, hincl, ?_⟩
    rcases hroot d hd with ⟨rel, hrel⟩
    refine ⟨rel ++ "/" ++ name, ?_, ?_⟩
    · intro hcontra
      have hdat := congrArg String.data hcontra
      rw [String.data_append, String.data_append] at hdat
      simp at hdat
    · rw [pyJoin, hrel, String.append_assoc, String.append_assoc,
        ← String.append_assoc rel]

/-- Witness for C9: walking a root "proj" holding the single file "a.txt"
produces the key "proj/a.txt", whose basename matches no pattern, which the
Pattern Filter includes, and which extends the root. -/
theorem walk_snapshot_invariant_witness :
    excluded_pattern (fun _ _ => false) (pyBasename "proj/a.txt") [] = false ∧
    include_file_in_checks (fun _ _ => false) "proj/a.txt" [] = true ∧
    ∃ rest : String, rest ≠ "" ∧ "proj/a.txt" = "proj" ++ rest :=
  walk_snapshot_invariant (fun _ _ => false) (fun _ => "") demoFS Method.TIMES
    [("proj", ["a.txt"])] [] "proj"
    (by
      intro d hd
      rw [List.mem_singleton] at hd
      subst hd
      exact ⟨"", by decide⟩)
    (by
      intro d hd
      rw [List.mem_singleton] at hd
      subst hd
      intro n hn
      rw [List.mem_singleton] at hn
      subst hn
      decide)
    "proj/a.txt" (by decide)

end Conttest
